import Mathlib

/-!
Verification development for the `wsutil` WebSocket reverse proxy
(`wsutil.go`). Go strings are embedded as `List Char`; the `*url.URL`
that `http.Request` points to is embedded as a reference (`Nat`) into a
URL heap, so that the pointer sharing of the shallow request copy in
`ServeHTTP` (`*outreq = *r`) is represented faithfully. The effectful
body of `ServeHTTP` is embedded as the sequence of observable events it
performs (dial, HTTP error response, log line, hijack, request write,
bridge, connection closes), driven by an environment giving the outcomes
of the fallible calls.
-/

namespace Wsutil

/-- A Go string (the sources only handle ASCII header values, paths,
hosts and queries, where Go's byte slicing and `List Char` agree). -/
abbrev GoStr := List Char

/-- Go `strings.ToLower` (ASCII-relevant part, via `Char.toLower`). -/
def toLowerStr (s : GoStr) : GoStr := s.map Char.toLower

/-- Embeds `singleJoiningSlash` of wsutil.go:

    aslash := strings.HasSuffix(a, "/")
    bslash := strings.HasPrefix(b, "/")
    switch {
    case aslash && bslash:   return a + b[1:]
    case !aslash && !bslash: return a + "/" + b
    }
    return a + b
-/
def singleJoiningSlash (a b : GoStr) : GoStr :=
  if List.isSuffixOf ['/'] a && List.isPrefixOf ['/'] b then
    a ++ b.drop 1
  else if !(List.isSuffixOf ['/'] a) && !(List.isPrefixOf ['/'] b) then
    a ++ ['/'] ++ b
  else
    a ++ b

/-- Whether a string holds two consecutive slashes anywhere. -/
def hasDoubleSlash : GoStr → Bool
  | c :: d :: rest => (c == '/' && d == '/') || hasDoubleSlash (d :: rest)
  | _ => false

/-- Embeds Go's `http.Header`: a map from (canonicalized) field names to
lists of values. The two keys wsutil.go looks up, `Connection` and
`Upgrade`, are already in canonical form. -/
abbrev Header := List (GoStr × List GoStr)

/-- Embeds `http.Header.Get` (`textproto.MIMEHeader.Get`): the first
value stored under the key, or the empty string when the key is absent
or has no values. -/
def headerGet (h : Header) (key : GoStr) : GoStr :=
  match h.find? (fun p => p.1 == key) with
  | none => []
  | some p =>
    match p.2 with
    | [] => []
    | v :: _ => v

/-- Embeds `IsWebSocketRequest` of wsutil.go:

    if strings.ToLower(r.Header.Get("Connection")) != "upgrade" { return false }
    if strings.ToLower(r.Header.Get("Upgrade")) != "websocket" { return false }
    return true
-/
def IsWebSocketRequest (h : Header) : Bool :=
  if toLowerStr (headerGet h ("Connection".toList)) ≠ "upgrade".toList then
    false
  else if toLowerStr (headerGet h ("Upgrade".toList)) ≠ "websocket".toList then
    false
  else
    true

/-- The components of a Go `url.URL` this proxy can see: the four fields
the director assigns (`Scheme`, `Host`, `Path`, `RawQuery`) and two it
never touches (`User`, `Fragment`), standing for all remaining fields. -/
structure URL where
  scheme : GoStr
  user : GoStr
  host : GoStr
  path : GoStr
  rawQuery : GoStr
  fragment : GoStr
deriving DecidableEq

/-- An `http.Request` as wsutil.go uses it: its `URL` field is a pointer,
embedded as a reference into a URL heap; the header map and body stream
are likewise reference-valued fields, embedded as opaque reference
numbers (the proxy never writes through them). -/
structure Request where
  method : GoStr
  urlRef : Nat
  headerRef : Nat
  bodyRef : Nat
deriving DecidableEq

/-- The value-level rewrite the director of `NewSingleHostReverseProxy`
performs on the URL it mutates (`targetQuery` is `target.RawQuery`,
captured at construction):

    req.URL.Scheme = target.Scheme
    req.URL.Host = target.Host
    req.URL.Path = singleJoiningSlash(target.Path, req.URL.Path)
    if targetQuery == "" || req.URL.RawQuery == "" {
      req.URL.RawQuery = targetQuery + req.URL.RawQuery
    } else {
      req.URL.RawQuery = targetQuery + "&" + req.URL.RawQuery
    }
-/
def directorURL (target : URL) (u : URL) : URL :=
  { scheme := target.scheme
    user := u.user
    host := target.host
    path := singleJoiningSlash target.path u.path
    rawQuery :=
      if target.rawQuery.isEmpty || u.rawQuery.isEmpty then
        target.rawQuery ++ u.rawQuery
      else
        target.rawQuery ++ ['&'] ++ u.rawQuery
    fragment := u.fragment }

/-- The director as a state transformer: it receives the request (by
pointer; it assigns none of the request struct's own fields) and writes
the rewritten URL through the request's URL reference into the heap. -/
def directorStep (target : URL) (req : Request) (heap : Nat → URL) :
    Request × (Nat → URL) :=
  (req, fun n => if n = req.urlRef then directorURL target (heap req.urlRef) else heap n)

/-- Embeds `outreq := new(http.Request); *outreq = *r`: a new request
struct whose fields, the references included, are copied from `r`. -/
def shallowCopy (r : Request) : Request :=
  { method := r.method
    urlRef := r.urlRef
    headerRef := r.headerRef
    bodyRef := r.bodyRef }

/-- Embeds the dial-address computation of `ServeHTTP`:

    host := outreq.URL.Host
    if !strings.Contains(host, ":") { host = host + ":80" }
-/
def dialAddr (host : GoStr) : GoStr :=
  if !(host.contains ':') then host ++ (":80".toList) else host

/-- The observable events of one `ServeHTTP` call. -/
inductive Ev where
  | dialCall (addr : GoStr)
  | httpError (code : Nat) (body : GoStr)
  | logMsg (template : GoStr)
  | hijackCall
  | hijackOk
  | writeReq
  | bridgeRun
  | closeBackend
  | closeClient
deriving DecidableEq

/-- Outcomes of the fallible calls `ServeHTTP` makes: the dial function's
result per address, whether the ResponseWriter implements `http.Hijacker`,
the error of `Hijack()` if any, and the error of `outreq.Write(d)` if any. -/
structure Env where
  dial : GoStr → Except GoStr Unit
  hijackSupported : Bool
  hijackErr : Option GoStr
  writeErr : Option GoStr

/-- Format string of the dial-failure log line in `ServeHTTP`. -/
def dialErrTemplate : GoStr := "Error dialing websocket backend %s: %v".toList

/-- Format string of the hijack-failure log line in `ServeHTTP`. -/
def hijackErrTemplate : GoStr := "Hijack error: %v".toList

/-- Format string of the request-write-failure log line in `ServeHTTP`. -/
def writeErrTemplate : GoStr := "Error copying request to target: %v".toList

/-- Body of the 500 response sent on dial failure. -/
def errForwardingBody : GoStr := "Error forwarding request.".toList

/-- Body of the 500 response sent when the ResponseWriter cannot hijack. -/
def notHijackerBody : GoStr := "Not a hijacker?".toList

/-- The event trace of `ServeHTTP` from the dial on, given the dial
address. Mirrors the control flow of wsutil.go lines 86-121: dial; on
error respond 500 and log; else test the `http.Hijacker` assertion (500
on failure, backend connection not closed); else `Hijack()` (log on
failure, backend connection not closed); on success `defer nc.Close()`
and `defer d.Close()` are registered, the rewritten request is written
(log on failure), the two copy goroutines run until `<-errc` returns,
and the deferred closes run in LIFO order (backend, then client). -/
def serveHTTPEvents (env : Env) (addr : GoStr) : List Ev :=
  match env.dial addr with
  | .error _ =>
    [.dialCall addr, .httpError 500 errForwardingBody, .logMsg dialErrTemplate]
  | .ok _ =>
    if !env.hijackSupported then
      [.dialCall addr, .httpError 500 notHijackerBody]
    else
      match env.hijackErr with
      | some _ => [.dialCall addr, .hijackCall, .logMsg hijackErrTemplate]
      | none =>
        match env.writeErr with
        | some _ =>
          [.dialCall addr, .hijackCall, .hijackOk, .writeReq,
           .logMsg writeErrTemplate, .closeBackend, .closeClient]
        | none =>
          [.dialCall addr, .hijackCall, .hijackOk, .writeReq, .bridgeRun,
           .closeBackend, .closeClient]

/-- The address `ServeHTTP` dials for a given target, request and URL
heap: the host of the rewritten URL, read back through the shallow
copy's shared URL reference, with the default port appended. -/
def requestAddr (target : URL) (r : Request) (heap : Nat → URL) : GoStr :=
  dialAddr ((directorStep target (shallowCopy r) heap).2 (shallowCopy r).urlRef).host

/-- One `ServeHTTP` call: the shallow copy, the director's in-place
rewrite of the shared URL, then the dial-and-forward phase. Returns the
event trace and the final URL heap. -/
def serveHTTP (env : Env) (target : URL) (r : Request) (heap : Nat → URL) :
    List Ev × (Nat → URL) :=
  (serveHTTPEvents env (requestAddr target r heap),
   (directorStep target (shallowCopy r) heap).2)

/-- Backend target used by the concrete checks. -/
def exTarget : URL :=
  { scheme := "http".toList
    user := []
    host := "backend.example".toList
    path := "/foo".toList
    rawQuery := "x=1".toList
    fragment := [] }

/-- The URL of the inbound request used by the concrete checks. -/
def exURL : URL :=
  { scheme := "http".toList
    user := []
    host := "client.example".toList
    path := "/bar".toList
    rawQuery := "y=2".toList
    fragment := "frag".toList }

/-- The inbound request used by the concrete checks; its URL pointer is
reference 0. -/
def exReq : Request :=
  { method := "GET".toList
    urlRef := 0
    headerRef := 0
    bodyRef := 0 }

/-- URL heap of the concrete checks: reference 0 holds the inbound URL. -/
def exHeap : Nat → URL := fun _ => exURL

/-- Environment in which every call succeeds. -/
def envAllOk : Env :=
  { dial := fun _ => .ok ()
    hijackSupported := true
    hijackErr := none
    writeErr := none }

/-- Environment whose ResponseWriter does not implement `http.Hijacker`;
the dial succeeds. -/
def envNoHijacker : Env :=
  { dial := fun _ => .ok ()
    hijackSupported := false
    hijackErr := none
    writeErr := none }

/-- Environment whose dial always fails. -/
def envDialFail : Env :=
  { dial := fun _ => .error ("connection refused".toList)
    hijackSupported := true
    hijackErr := none
    writeErr := none }

/-- Backend target whose host is a bracketed IPv6 literal with no port. -/
def ipv6Target : URL :=
  { scheme := "http".toList
    user := []
    host := "[::1]".toList
    path := "/foo".toList
    rawQuery := []
    fragment := [] }

theorem isPrefixOf_slash_iff (b : GoStr) :
    List.isPrefixOf ['/'] b = true ↔ b.head? = some '/' := by
  cases b with
  | nil => simp [List.isPrefixOf]
  | cons c bs =>
    rw [List.isPrefixOf_cons₂, List.isPrefixOf_nil_left]
    rw [Bool.and_true, beq_iff_eq, List.head?_cons]
    constructor
    · intro h; rw [h]
    · intro h; cases h; rfl

theorem isSuffixOf_slash_iff (a : GoStr) :
    List.isSuffixOf ['/'] a = true ↔ a.getLast? = some '/' := by
  show List.isPrefixOf (['/'].reverse) a.reverse = true ↔ _
  rw [show (['/'] : GoStr).reverse = ['/'] from rfl, isPrefixOf_slash_iff,
    List.head?_reverse]

theorem hasDoubleSlash_cons_cons (c d : Char) (rest : GoStr) :
    hasDoubleSlash (c :: d :: rest) =
      ((c == '/' && d == '/') || hasDoubleSlash (d :: rest)) := rfl

theorem hasDoubleSlash_tail (c : Char) (bs : GoStr)
    (h : hasDoubleSlash (c :: bs) = false) : hasDoubleSlash bs = false := by
  cases bs with
  | nil => rfl
  | cons d bs2 =>
    rw [hasDoubleSlash_cons_cons] at h
    exact (Bool.or_eq_false_iff.mp h).2

theorem head_ne_slash_of_cons_slash (bs : GoStr)
    (h : hasDoubleSlash ('/' :: bs) = false) : bs.head? ≠ some '/' := by
  cases bs with
  | nil => simp
  | cons d bs2 =>
    rw [hasDoubleSlash_cons_cons] at h
    have h1 := (Bool.or_eq_false_iff.mp h).1
    simp only [List.head?_cons, ne_eq, Option.some.injEq]
    intro hd
    simp [hd] at h1

theorem hasDoubleSlash_slash_cons (b : GoStr) (hb : hasDoubleSlash b = false)
    (hhead : b.head? ≠ some '/') : hasDoubleSlash ('/' :: b) = false := by
  cases b with
  | nil => rfl
  | cons d bs =>
    rw [hasDoubleSlash_cons_cons]
    have hd : d ≠ '/' := by simpa using hhead
    simp [hd, hb]

theorem hasDoubleSlash_append (a b : GoStr) (ha : hasDoubleSlash a = false)
    (hb : hasDoubleSlash b = false)
    (hseam : a.getLast? = some '/' → b.head? ≠ some '/') :
    hasDoubleSlash (a ++ b) = false := by
  induction a with
  | nil => simpa using hb
  | cons c as ih =>
    cases as with
    | nil =>
      cases b with
      | nil => simpa using ha
      | cons d bs =>
        have hcd : ¬(c = '/' ∧ d = '/') := by
          rintro ⟨rfl, rfl⟩
          exact hseam (by simp) rfl
        have hand : (c == '/' && d == '/') = false := by
          by_cases hc : c = '/'
          · by_cases hdd : d = '/'
            · exact absurd ⟨hc, hdd⟩ hcd
            · simp [hdd]
          · simp [hc]
        simpa [hasDoubleSlash_cons_cons, hand] using hb
    | cons c2 as2 =>
      rw [hasDoubleSlash_cons_cons] at ha
      have h1 := (Bool.or_eq_false_iff.mp ha).1
      have h2 := (Bool.or_eq_false_iff.mp ha).2
      have hseam2 : (c2 :: as2).getLast? = some '/' → b.head? ≠ some '/' := by
        intro hg
        exact hseam (by rwa [List.getLast?_cons_cons])
      have ih2 := ih h2 hseam2
      have : (c :: c2 :: as2) ++ b = c :: c2 :: (as2 ++ b) := by simp
      rw [this, hasDoubleSlash_cons_cons]
      have : (c2 :: as2) ++ b = c2 :: (as2 ++ b) := by simp
      rw [this] at ih2
      simp [h1, ih2]

/-- C3: `IsWebSocketRequest` returns true iff the case-folded value of the
`Connection` header equals exactly `upgrade` and the case-folded value of
the `Upgrade` header equals exactly `websocket`; it is true for
`{Connection: Upgrade, Upgrade: WebSocket}`, false when `Connection` is
`keep-alive`, and false when the `Upgrade` header is absent. -/
theorem c3_isWebSocketRequest_spec :
    (∀ h : Header, IsWebSocketRequest h = true ↔
      (toLowerStr (headerGet h ("Connection".toList)) = "upgrade".toList ∧
       toLowerStr (headerGet h ("Upgrade".toList)) = "websocket".toList)) ∧
    IsWebSocketRequest
      [(("Connection".toList), ["Upgrade".toList]),
       (("Upgrade".toList), ["WebSocket".toList])] = true ∧
    IsWebSocketRequest [(("Connection".toList), ["keep-alive".toList])] = false ∧
    IsWebSocketRequest [(("Connection".toList), ["Upgrade".toList])] = false := by
  refine ⟨fun h => ?_, by decide, by decide, by decide⟩
  by_cases h1 : toLowerStr (headerGet h ("Connection".toList)) = "upgrade".toList <;>
    by_cases h2 : toLowerStr (headerGet h ("Upgrade".toList)) = "websocket".toList <;>
    simp [IsWebSocketRequest, h1, h2]

/-- C9: `IsWebSocketRequest` inspects only the first value stored under
the `Connection` key: whenever that first value does not case-fold to
`upgrade`, the result is false regardless of the later values of that
header and of all other headers; in particular for `Connection:
[keep-alive, Upgrade]` with a correct `Upgrade` header. -/
theorem c9_first_connection_value_only :
    (∀ (v : GoStr) (vs : List GoStr) (rest : Header),
      toLowerStr v ≠ "upgrade".toList →
      IsWebSocketRequest ((("Connection".toList), v :: vs) :: rest) = false) ∧
    IsWebSocketRequest
      [(("Connection".toList), ["keep-alive".toList, "Upgrade".toList]),
       (("Upgrade".toList), ["websocket".toList])] = false := by
  refine ⟨fun v vs rest hv => ?_, by decide⟩
  have hbeq : (("Connection".toList : GoStr) == "Connection".toList) = true := by decide
  have hget : headerGet ((("Connection".toList), v :: vs) :: rest)
      ("Connection".toList) = v := by
    simp [headerGet, List.find?, hbeq]
  unfold IsWebSocketRequest
  rw [hget, if_pos hv]

/-- C4: the path join satisfies the three stated cases (both slashes:
drop one; neither: insert one; mixed: plain concatenation), maps
`/a/`,`/b` and `/a`,`/b` to `/a/b`, and never produces a double slash of
its own: inputs free of `//` always join to a result free of `//`. -/
theorem c4_singleJoiningSlash_spec :
    (∀ a b : GoStr,
      (List.isSuffixOf ['/'] a = true → List.isPrefixOf ['/'] b = true →
        singleJoiningSlash a b = a ++ b.drop 1) ∧
      (List.isSuffixOf ['/'] a = false → List.isPrefixOf ['/'] b = false →
        singleJoiningSlash a b = a ++ ['/'] ++ b) ∧
      (List.isSuffixOf ['/'] a = true → List.isPrefixOf ['/'] b = false →
        singleJoiningSlash a b = a ++ b) ∧
      (List.isSuffixOf ['/'] a = false → List.isPrefixOf ['/'] b = true →
        singleJoiningSlash a b = a ++ b) ∧
      (hasDoubleSlash a = false → hasDoubleSlash b = false →
        hasDoubleSlash (singleJoiningSlash a b) = false)) ∧
    singleJoiningSlash ("/a/".toList) ("/b".toList) = "/a/b".toList ∧
    singleJoiningSlash ("/a".toList) ("/b".toList) = "/a/b".toList := by
  refine ⟨fun a b => ⟨?_, ?_, ?_, ?_, ?_⟩, by decide, by decide⟩
  · intro h1 h2; simp [singleJoiningSlash, h1, h2]
  · intro h1 h2; simp [singleJoiningSlash, h1, h2]
  · intro h1 h2; simp [singleJoiningSlash, h1, h2]
  · intro h1 h2; simp [singleJoiningSlash, h1, h2]
  · intro ha hb
    cases hsa : List.isSuffixOf ['/'] a <;> cases hpb : List.isPrefixOf ['/'] b
    · -- no trailing slash on a, no leading slash on b: a ++ "/" ++ b
      have hbhead : b.head? ≠ some '/' := by
        intro h
        rw [(isPrefixOf_slash_iff b).mpr h] at hpb
        cases hpb
      have halast : a.getLast? ≠ some '/' := by
        intro h
        rw [(isSuffixOf_slash_iff a).mpr h] at hsa
        cases hsa
      have step : hasDoubleSlash ('/' :: b) = false :=
        hasDoubleSlash_slash_cons b hb hbhead
      have : a ++ ['/'] ++ b = a ++ ('/' :: b) := by simp
      simp only [singleJoiningSlash, hsa, hpb, Bool.false_and, Bool.not_false,
        Bool.true_and, if_false, if_true, this]
      exact hasDoubleSlash_append a ('/' :: b) ha step (fun h => absurd h halast)
    · -- no trailing slash on a, leading slash on b: a ++ b
      have halast : a.getLast? ≠ some '/' := by
        intro h
        rw [(isSuffixOf_slash_iff a).mpr h] at hsa
        cases hsa
      simp only [singleJoiningSlash, hsa, hpb, Bool.false_and, Bool.not_true,
        Bool.and_false, if_false]
      exact hasDoubleSlash_append a b ha hb (fun h => absurd h halast)
    · -- trailing slash on a, no leading slash on b: a ++ b
      have hbhead : b.head? ≠ some '/' := by
        intro h
        rw [(isPrefixOf_slash_iff b).mpr h] at hpb
        cases hpb
      simp only [singleJoiningSlash, hsa, hpb, Bool.and_false, Bool.not_true,
        Bool.false_and, if_false]
      exact hasDoubleSlash_append a b ha hb (fun _ => hbhead)
    · -- trailing slash on a, leading slash on b: a ++ b.drop 1
      obtain ⟨bs, rfl⟩ : ∃ bs, b = '/' :: bs := by
        have := (isPrefixOf_slash_iff b).mp hpb
        cases b with
        | nil => cases this
        | cons c bs =>
          rw [List.head?_cons] at this
          cases this
          exact ⟨bs, rfl⟩
      have hbs : hasDoubleSlash bs = false := hasDoubleSlash_tail '/' bs hb
      have hbshead : bs.head? ≠ some '/' := head_ne_slash_of_cons_slash bs hb
      simp only [singleJoiningSlash, hsa, hpb, Bool.and_self, if_true,
        List.drop_succ_cons, List.drop_zero]
      exact hasDoubleSlash_append a bs ha hbs (fun _ => hbshead)

/-- C5: the query of the rewritten URL is empty when both the base query
and the inbound query are empty, equals the non-empty one when exactly
one is non-empty, and is `base & inbound` when both are non-empty. -/
theorem c5_query_merge_spec (target u : URL) :
    (target.rawQuery = [] → u.rawQuery = [] → (directorURL target u).rawQuery = []) ∧
    (target.rawQuery = [] → (directorURL target u).rawQuery = u.rawQuery) ∧
    (u.rawQuery = [] → (directorURL target u).rawQuery = target.rawQuery) ∧
    (target.rawQuery ≠ [] → u.rawQuery ≠ [] →
      (directorURL target u).rawQuery = target.rawQuery ++ ['&'] ++ u.rawQuery) := by
  refine ⟨fun h1 h2 => ?_, fun h1 => ?_, fun h2 => ?_, fun h1 h2 => ?_⟩
  · simp [directorURL, h1, h2]
  · simp [directorURL, h1]
  · simp [directorURL, h2]
  · simp [directorURL, h1, h2]

/-- C8: the request rewriter built by `NewSingleHostReverseProxy` is a
pure function of the fixed base target and its input: invoked again on
an equal URL (and an equal request state) it produces an equal result. -/
theorem c8_rewriter_pure (target u₁ u₂ : URL) (r₁ r₂ : Request)
    (heap₁ heap₂ : Nat → URL) (hu : u₁ = u₂) (hr : r₁ = r₂)
    (hheap : heap₁ = heap₂) :
    directorURL target u₁ = directorURL target u₂ ∧
    directorStep target r₁ heap₁ = directorStep target r₂ heap₂ := by
  subst hu; subst hr; subst hheap
  exact ⟨rfl, rfl⟩

/-- Witness for C8 at a concrete target, URL, request and heap. -/
theorem c8_rewriter_pure_witness :
    directorURL exTarget exURL = directorURL exTarget exURL ∧
    directorStep exTarget exReq exHeap = directorStep exTarget exReq exHeap :=
  c8_rewriter_pure exTarget exURL exURL exReq exReq exHeap exHeap rfl rfl rfl

/-- C10: the director writes only through the request's URL reference
(and there only the scheme/host/path/query fields): the request struct's
method, header reference, body reference and URL reference are unchanged,
the URL's user info and fragment are unchanged, and every other heap
cell is unchanged. -/
theorem c10_director_frame (target : URL) (r : Request) (heap : Nat → URL) :
    (directorStep target r heap).1.method = r.method ∧
    (directorStep target r heap).1.headerRef = r.headerRef ∧
    (directorStep target r heap).1.bodyRef = r.bodyRef ∧
    (directorStep target r heap).1.urlRef = r.urlRef ∧
    ((directorStep target r heap).2 r.urlRef).user = (heap r.urlRef).user ∧
    ((directorStep target r heap).2 r.urlRef).fragment = (heap r.urlRef).fragment ∧
    (∀ n, n ≠ r.urlRef → (directorStep target r heap).2 n = heap n) := by
  refine ⟨rfl, rfl, rfl, rfl, ?_, ?_, fun n hn => ?_⟩
  · simp [directorStep, directorURL]
  · simp [directorStep, directorURL]
  · simp [directorStep, hn]

/-- C1 counterexample: with an all-successful environment, a proxied
request whose URL host differs from the target's has its ORIGINAL URL's
host changed by `ServeHTTP`'s rewrite, because the shallow copy shares
the URL reference; so the claim "the original request's URL scheme,
host, path, and query are unchanged" is false at this input. -/
theorem c1_counterexample :
    ((serveHTTP envAllOk exTarget exReq exHeap).2 exReq.urlRef).host ≠
      (exHeap exReq.urlRef).host := by decide

/-- C1 (amended): the shallow copy shares the URL reference with the
caller's original request, so after the Director runs the original
request's URL equals the Director's rewrite of its previous value: its
scheme and host are the target's and its path is the joined path; heap
cells other than the shared one are untouched. -/
theorem c1_shallow_copy_shares_url (env : Env) (target : URL) (r : Request)
    (heap : Nat → URL) :
    (shallowCopy r).urlRef = r.urlRef ∧
    (serveHTTP env target r heap).2 r.urlRef = directorURL target (heap r.urlRef) ∧
    ((serveHTTP env target r heap).2 r.urlRef).scheme = target.scheme ∧
    ((serveHTTP env target r heap).2 r.urlRef).host = target.host ∧
    ((serveHTTP env target r heap).2 r.urlRef).path =
      singleJoiningSlash target.path (heap r.urlRef).path ∧
    (∀ n, n ≠ r.urlRef → (serveHTTP env target r heap).2 n = heap n) := by
  refine ⟨rfl, ?_, ?_, ?_, ?_, fun n hn => ?_⟩
  · simp [serveHTTP, directorStep, shallowCopy]
  · simp [serveHTTP, directorStep, shallowCopy, directorURL]
  · simp [serveHTTP, directorStep, shallowCopy, directorURL]
  · simp [serveHTTP, directorStep, shallowCopy, directorURL]
  · simp [serveHTTP, directorStep, shallowCopy, hn]

/-- C2 counterexample: with a successful dial and a ResponseWriter that
is not a `http.Hijacker`, `ServeHTTP` takes the failure path that sends
the 500 "Not a hijacker?" response, yet closes neither connection: the
backend connection just dialed is never closed, so the claim that every
post-dial failure path closes both connections exactly once is false. -/
theorem c2_counterexample :
    (serveHTTP envNoHijacker exTarget exReq exHeap).1.count
        (Ev.httpError 500 notHijackerBody) = 1 ∧
    (serveHTTP envNoHijacker exTarget exReq exHeap).1.count Ev.closeBackend = 0 ∧
    (serveHTTP envNoHijacker exTarget exReq exHeap).1.count Ev.closeClient = 0 := by
  decide

/-- C2 (amended): of the failure paths after a successful dial, only the
request-write failure closes the two connections (each exactly once, by
the deferred closes); when the hijack assertion fails, and when
`Hijack()` errors, no connection is closed at all and the client
connection is never taken over. -/
theorem c2_close_accounting (env : Env) (target : URL) (r : Request)
    (heap : Nat → URL) :
    (env.hijackSupported = false →
      (serveHTTP env target r heap).1.count Ev.closeBackend = 0 ∧
      (serveHTTP env target r heap).1.count Ev.closeClient = 0 ∧
      (serveHTTP env target r heap).1.count Ev.hijackOk = 0) ∧
    (env.hijackErr.isSome = true →
      (serveHTTP env target r heap).1.count Ev.closeBackend = 0 ∧
      (serveHTTP env target r heap).1.count Ev.closeClient = 0 ∧
      (serveHTTP env target r heap).1.count Ev.hijackOk = 0) ∧
    (env.dial (requestAddr target r heap) = Except.ok () →
     env.hijackSupported = true → env.hijackErr = none →
     env.writeErr.isSome = true →
      (serveHTTP env target r heap).1.count Ev.closeBackend = 1 ∧
      (serveHTTP env target r heap).1.count Ev.closeClient = 1 ∧
      (serveHTTP env target r heap).1.count (Ev.logMsg writeErrTemplate) = 1) := by
  rcases hd : env.dial (requestAddr target r heap) with e | u
  · refine ⟨fun _ => ?_, fun _ => ?_, fun hdok => ?_⟩
    · simp [serveHTTP, serveHTTPEvents, hd, List.count_cons]
    · simp [serveHTTP, serveHTTPEvents, hd, List.count_cons]
    · exact Except.noConfusion hdok
  · cases hs : env.hijackSupported
    · refine ⟨fun _ => ?_, fun _ => ?_, fun _ hs2 _ _ => ?_⟩
      · simp [serveHTTP, serveHTTPEvents, hd, hs, List.count_cons]
      · simp [serveHTTP, serveHTTPEvents, hd, hs, List.count_cons]
      · exact Bool.noConfusion hs2
    · rcases he : env.hijackErr with _ | ev
      · refine ⟨fun hs2 => ?_, fun he2 => ?_, fun _ _ _ hw => ?_⟩
        · exact Bool.noConfusion hs2
        · exact Bool.noConfusion he2
        · rcases hwv : env.writeErr with _ | wv
          · rw [hwv] at hw
            exact Bool.noConfusion hw
          · simp [serveHTTP, serveHTTPEvents, hd, hs, he, hwv, List.count_cons]
      · refine ⟨fun hs2 => ?_, fun _ => ?_, fun _ _ he2 _ => ?_⟩
        · exact Bool.noConfusion hs2
        · simp [serveHTTP, serveHTTPEvents, hd, hs, he, List.count_cons]
        · exact Option.noConfusion he2

/-- C6: evaluation of the dial-address computation at the inputs that
decide the claim. The rule the code implements is "append `:80` iff the
host contains no colon": `example.com` becomes `example.com:80` and
`example.com:9000` is unchanged as claimed, but the bracketed IPv6 host
`[::1]`, which has no explicit port, is left without a port, contradicting
the claim (and the code's own comment "if host does not specify a port,
default to port 80"). -/
theorem c6_default_port_eval :
    dialAddr ("example.com".toList) = "example.com:80".toList ∧
    dialAddr ("example.com:9000".toList) = "example.com:9000".toList ∧
    dialAddr ("[::1]".toList) = "[::1]".toList ∧
    requestAddr ipv6Target exReq exHeap = "[::1]".toList := by decide

/-- C7: whenever the configured dialer fails on the computed address,
`ServeHTTP` performs exactly the dial, the 500 response with the generic
body, and one dial-error log line: a single dial (no retry, no alternate
backend), no hijack, no request write, no bridge. -/
theorem c7_dial_error_response (env : Env) (target : URL) (r : Request)
    (heap : Nat → URL) (e : GoStr)
    (hdial : env.dial (requestAddr target r heap) = Except.error e) :
    (serveHTTP env target r heap).1 =
      [Ev.dialCall (requestAddr target r heap),
       Ev.httpError 500 errForwardingBody,
       Ev.logMsg dialErrTemplate] ∧
    (serveHTTP env target r heap).1.count (Ev.logMsg dialErrTemplate) = 1 ∧
    (serveHTTP env target r heap).1.countP
      (fun ev => match ev with | Ev.dialCall _ => true | _ => false) = 1 ∧
    Ev.hijackCall ∉ (serveHTTP env target r heap).1 ∧
    Ev.hijackOk ∉ (serveHTTP env target r heap).1 ∧
    Ev.writeReq ∉ (serveHTTP env target r heap).1 ∧
    Ev.bridgeRun ∉ (serveHTTP env target r heap).1 := by
  refine ⟨?_, ?_, ?_, ?_, ?_, ?_, ?_⟩ <;>
    simp [serveHTTP, serveHTTPEvents, hdial, List.count_cons, List.countP_cons]

/-- Witness for C7: a dialer that always fails, at the concrete request. -/
theorem c7_dial_error_response_witness :
    (serveHTTP envDialFail exTarget exReq exHeap).1 =
      [Ev.dialCall (requestAddr exTarget exReq exHeap),
       Ev.httpError 500 errForwardingBody,
       Ev.logMsg dialErrTemplate] :=
  (c7_dial_error_response envDialFail exTarget exReq exHeap
    ("connection refused".toList) rfl).1

end Wsutil
